import Mathlib

/-!
Verification of the text-extraction and AI-response-normalization core of the
legal-document simplification service (`app/services/ai_simplifier.py` and
`app/services/document_processor.py`), via a shallow embedding in Lean 4.

Python values flowing through the normalizer are modelled by `PyVal`
(dictionaries as association lists with Python's insertion-order update
semantics).  Python machine floats are modelled by `Rat`; the score
arithmetic performed by the code stays within small decimal fractions whose
comparisons agree between binary floats and rationals.
-/

/-- Model of a Python value as produced by `json.loads` and manipulated by the
normalizer.  Dictionaries are association lists in insertion order, matching
CPython's dict semantics. -/
inductive PyVal where
  | none
  | bool (b : Bool)
  | int (n : Int)
  | rat (q : Rat)
  | str (s : String)
  | list (xs : List PyVal)
  | dict (es : List (PyVal × PyVal))

/-- A Python dictionary: an association list in insertion order. -/
abbrev PyDict := List (PyVal × PyVal)

/-- Python truthiness (`bool(x)`); `rat` models a Python float. -/
def pyTruthy : PyVal → Bool
  | .none => false
  | .bool b => b
  | .int n => n != 0
  | .rat q => decide (q ≠ 0)
  | .str s => s != ""
  | .list xs => !xs.isEmpty
  | .dict es => !es.isEmpty

/-- Characters stripped by Python's `str.strip()` (the ASCII whitespace set;
the further Unicode whitespace code points never occur in the verified
inputs). -/
def isPyWs (c : Char) : Bool :=
  c = ' ' ∨ c = '\t' ∨ c = '\n' ∨ c = '\r' ∨ c = '\x0b' ∨ c = '\x0c'

/-- Strip leading whitespace from a character list. -/
def stripLeft (l : List Char) : List Char := l.dropWhile isPyWs

/-- Strip trailing whitespace from a character list. -/
def stripRight (l : List Char) : List Char := (l.reverse.dropWhile isPyWs).reverse

/-- Model of Python `str.strip()`. -/
def pyStrip (s : String) : String := String.mk (stripRight (stripLeft s.data))

/-- Key equality used by the dict model.  Python containers are unhashable and
can never be dictionary keys, so those cases are inert; every key occurring in
the embedded program is a string. -/
def pyKeyEq : PyVal → PyVal → Bool
  | .none, .none => true
  | .bool a, .bool b => a == b
  | .int a, .int b => a == b
  | .rat a, .rat b => a == b
  | .str a, .str b => a == b
  | _, _ => false

/-- Dictionary lookup `d[k]` (`None`-free: returns `Option`). -/
def dictGet : PyDict → PyVal → Option PyVal
  | [], _ => Option.none
  | (k', v') :: rest, k => if pyKeyEq k' k then some v' else dictGet rest k

/-- Dictionary assignment `d[k] = v`: replaces the value in place if the key is present
(CPython keeps the key's insertion position), otherwise appends. -/
def dictSet (d : PyDict) (k v : PyVal) : PyDict :=
  match d with
  | [] => [(k, v)]
  | (k', v') :: rest => if pyKeyEq k' k then (k, v) :: rest else (k', v') :: dictSet rest k v

/-- Lookup `d.get(k)` with default `None`. -/
def dictGetD (d : PyDict) (k : String) : PyVal := (dictGet d (.str k)).getD .none

/-- Python `repr` of a value.  Scalar cases are exact; the container and float
renderings are schematic (no verified property ever evaluates them: they are
only reachable through `str()` applied to a non-string, non-scalar field
value). -/
def pyRepr : PyVal → String
  | .none => "None"
  | .bool true => "True"
  | .bool false => "False"
  | .int n => toString n
  | .rat q => toString q
  | .str s => "\x27" ++ s ++ "\x27"
  | .list xs => "[" ++ String.intercalate ", " (xs.attach.map (fun x => pyRepr x.1)) ++ "]"
  | .dict es => "\x7b" ++ String.intercalate ", "
      (es.attach.map (fun e => pyRepr e.1.1 ++ ": " ++ pyRepr e.1.2)) ++ "\x7d"
decreasing_by
  · have := List.sizeOf_lt_of_mem x.2
    simp only [PyVal.list.sizeOf_spec]
    omega
  · have h1 := List.sizeOf_lt_of_mem e.2
    have h2 : sizeOf e.1.1 < sizeOf e.1 := by
      obtain ⟨a, b⟩ := e.1
      simp only [Prod.mk.sizeOf_spec]
      omega
    simp only [PyVal.dict.sizeOf_spec]
    omega
  · have h1 := List.sizeOf_lt_of_mem e.2
    have h2 : sizeOf e.1.2 < sizeOf e.1 := by
      obtain ⟨a, b⟩ := e.1
      simp only [Prod.mk.sizeOf_spec]
      omega
    simp only [PyVal.dict.sizeOf_spec]
    omega

/-- Python `str(x)`: identity on strings, `repr` otherwise (they agree on the
scalars). -/
def pyStr : PyVal → String
  | .str s => s
  | v => pyRepr v

/-- Python `len(x)`: defined for strings, lists and dicts; a `TypeError` on
other values (modelled as `Option.none`). -/
def pyLen : PyVal → Option Nat
  | .str s => some s.length
  | .list xs => some xs.length
  | .dict es => some es.length
  | _ => Option.none

/-- Iterating a Python value with `for`: lists yield elements, strings yield
one-character strings, dicts yield keys.  Other values raise `TypeError` in
Python; in the embedded program iteration only ever happens after the
field-coercion stage has guaranteed a list, so the remaining cases are inert
and mapped to the empty iteration. -/
def pyIter : PyVal → List PyVal
  | .list xs => xs
  | .str s => s.data.map (fun c => .str (String.mk [c]))
  | .dict es => es.map (fun e => e.1)
  | _ => []

/-- Items `d.items()` for a dict value; non-dicts are unreachable at the single call
site (the coercion stage has guaranteed a dict there). -/
def pyItems : PyVal → List (PyVal × PyVal)
  | .dict es => es
  | _ => []

/-- Splitter shared by the models of `re.split(r'[.!?]+', s)` and
`str.split()`: splits a character list at maximal runs of characters
satisfying `p`, keeping empty pieces (as `re.split` does).  State: current
piece and finished pieces, both reversed, and whether the previous character
belonged to a separator run. -/
def splitRunsGo (p : Char → Bool) :
    List Char → List Char → List (List Char) → Bool → List (List Char)
  | [], acc, done, inRun =>
    if inRun then (([] : List Char) :: done).reverse else (acc.reverse :: done).reverse
  | c :: rest, acc, done, inRun =>
    if p c then
      if inRun then splitRunsGo p rest [] done true
      else splitRunsGo p rest [] (acc.reverse :: done) true
    else splitRunsGo p rest (c :: acc) done false

/-- Split at maximal runs of `p`-characters, keeping empty pieces. -/
def splitRuns (p : Char → Bool) (l : List Char) : List (List Char) :=
  splitRunsGo p l [] [] false

/-- Model of Python `str.split()` (whitespace split, empties discarded). -/
def pySplitWs (s : String) : List (List Char) :=
  (splitRuns isPyWs s.data).filter (fun w => !w.isEmpty)

/-- Bool-valued substring containment on character lists. -/
def containsSub : List Char → List Char → Bool
  | [], sub => sub.isEmpty
  | l@(_ :: t), sub => sub.isPrefixOf l || containsSub t sub

/-- Model of Python `sub in s`. -/
def strContains (s sub : String) : Bool := containsSub s.data sub.data

/-- Model of Python `s.startswith(pre)` (kernel-reducible). -/
def strStarts (s pre : String) : Bool := pre.data.isPrefixOf s.data

/-- Model of Python `s.lower()` (ASCII case mapping; only the detection of
ASCII keywords depends on it). -/
def strLower (s : String) : String := String.mk (s.data.map Char.toLower)

/-- Model of Python `s.split(sep)` for a one-character separator, keeping
empty pieces. -/
def splitOnCharGo (c : Char) : List Char → List Char → List String
  | [], acc => [String.mk acc.reverse]
  | x :: rest, acc =>
    if x = c then String.mk acc.reverse :: splitOnCharGo c rest []
    else splitOnCharGo c rest (x :: acc)

/-- Line split `s.split('\n')`. -/
def splitLines (s : String) : List String := splitOnCharGo '\n' s.data []

/-- Exceptions of the embedded program. -/
inductive PyErr where
  | jsonDecodeError
  | attributeError
  | typeError
  | generationFailure
  deriving DecidableEq


/-- The six required fields of `StructuredContent` with their defaults, in the
iteration order of `_validate_and_clean_content`'s `required_fields` dict. -/
def requiredDefaults : List (String × PyVal) :=
  [("summary", .str ""), ("key_points", .list []), ("important_terms", .dict []),
   ("deadlines_obligations", .list []), ("warnings", .list []), ("next_steps", .list [])]

/-- One iteration of the field-presence/coercion loop of
`_validate_and_clean_content`: a missing field gets its default; a non-list
`key_points` is wrapped as `[str(x)]`; a non-dict `important_terms` is replaced
by `{}`; a non-list `deadlines_obligations`/`warnings`/`next_steps` becomes
`[str(x)]` when truthy and `[]` otherwise. -/
def ensureField (d : PyDict) (field : String) (dflt : PyVal) : PyDict :=
  match dictGet d (.str field) with
  | Option.none => dictSet d (.str field) dflt
  | some v =>
    if field = "key_points" then
      match v with
      | .list _ => d
      | _ => dictSet d (.str field) (.list [.str (pyStr v)])
    else if field = "important_terms" then
      match v with
      | .dict _ => d
      | _ => dictSet d (.str field) (.dict [])
    else if field = "deadlines_obligations" ∨ field = "warnings" ∨ field = "next_steps" then
      match v with
      | .list _ => d
      | _ => dictSet d (.str field) (if pyTruthy v then .list [.str (pyStr v)] else .list [])
    else d

/-- The field-presence/coercion loop over all six required fields. -/
def ensureFields (d : PyDict) : PyDict :=
  requiredDefaults.foldl (fun d fd => ensureField d fd.1 fd.2) d

/-- The comprehension `[str(x).strip() for x in xs if str(x).strip()]`,
re-wrapped as values. -/
def cleanStrList (xs : List PyVal) : List PyVal :=
  (((xs.map (fun p => pyStrip (pyStr p))).filter (fun s => s != ""))).map PyVal.str

/-- One iteration of the `important_terms` cleaning loop: an entry whose key
and value are both truthy is inserted as `str(k).strip() : str(v).strip()`
with dict-assignment semantics; other entries are dropped. -/
def cleanTermsStep (acc : PyDict) (kv : PyVal × PyVal) : PyDict :=
  if pyTruthy kv.1 && pyTruthy kv.2 then
    dictSet acc (.str (pyStrip (pyStr kv.1))) (.str (pyStrip (pyStr kv.2)))
  else acc

/-- The `important_terms` cleaning loop of `_validate_and_clean_content`. -/
def cleanTerms (es : List (PyVal × PyVal)) : PyDict :=
  es.foldl cleanTermsStep []

/-- Embedding of `_validate_and_clean_content`: the presence/coercion loop,
then the per-field cleanup assignments in source order (summary, key_points,
deadlines_obligations, warnings, next_steps, important_terms). -/
def validateAndCleanContent (d : PyDict) : PyDict :=
  let d := ensureFields d
  let d := dictSet d (.str "summary") (.str (pyStrip (pyStr (dictGetD d "summary"))))
  let d := dictSet d (.str "key_points") (.list (cleanStrList (pyIter (dictGetD d "key_points"))))
  let d := dictSet d (.str "deadlines_obligations")
    (.list (cleanStrList (pyIter (dictGetD d "deadlines_obligations"))))
  let d := dictSet d (.str "warnings") (.list (cleanStrList (pyIter (dictGetD d "warnings"))))
  let d := dictSet d (.str "next_steps") (.list (cleanStrList (pyIter (dictGetD d "next_steps"))))
  let d := dictSet d (.str "important_terms") (.dict (cleanTerms (pyItems (dictGetD d "important_terms"))))
  d

/-- The fresh six-field structure `_parse_text_response` starts from. -/
def ptrInit : PyDict :=
  [(.str "summary", .str ""), (.str "key_points", .list []), (.str "important_terms", .dict []),
   (.str "deadlines_obligations", .list []), (.str "warnings", .list []), (.str "next_steps", .list [])]

/-- Python `line.split(':', 1)` when a colon is present: the pieces before and
after the first colon. -/
def splitFirstColon (l : List Char) : Option (List Char × List Char) :=
  match (l.span (fun c => c != ':')).2 with
  | [] => Option.none
  | _ :: after => some ((l.span (fun c => c != ':')).1, after)

/-- One loop iteration of `_parse_text_response` over a raw line: strip it,
skip if blank, else run the section-keyword `elif` chain; bullet lines are
appended to the current section's value with `.append`, which raises
`AttributeError` when that value is the summary string. -/
def ptrLine (st : PyDict × Option String) (rawLine : String) :
    Except PyErr (PyDict × Option String) :=
  let line := pyStrip rawLine
  if line = "" then .ok st
  else
    let content := st.1
    let sec := st.2
    let low := strLower line
    if strContains low "summary" then .ok (content, some "summary")
    else if strContains low "key points" || strContains low "main points" then
      .ok (content, some "key_points")
    else if strContains low "terms" || strContains low "definitions" then
      .ok (content, some "important_terms")
    else if strContains low "deadline" || strContains low "obligation" then
      .ok (content, some "deadlines_obligations")
    else if strContains low "warning" || strContains low "risk" then
      .ok (content, some "warnings")
    else if strContains low "next step" || strContains low "action" then
      .ok (content, some "next_steps")
    else if strStarts line "-" || strStarts line "â€¢" || strStarts line "*" then
      match sec with
      | some s =>
        if s != "important_terms" then
          match dictGet content (.str s) with
          | some (.list xs) =>
            .ok (dictSet content (.str s)
              (.list (xs ++ [.str (pyStrip (String.mk (line.data.drop 1)))])), sec)
          | _ => .error .attributeError
        else .ok st
      | Option.none => .ok st
    else if sec == some "summary" && !pyTruthy (dictGetD content "summary") then
      .ok (dictSet content (.str "summary") (.str line), sec)
    else if sec == some "important_terms" && strContains line ":" then
      match splitFirstColon line.data with
      | some (before, after) =>
        match dictGetD content "important_terms" with
        | .dict es =>
          .ok (dictSet content (.str "important_terms")
            (.dict (dictSet es (.str (pyStrip (String.mk before)))
              (.str (pyStrip (String.mk after))))), sec)
        | _ => .error .typeError
      | Option.none => .ok st
    else .ok st

/-- Embedding of `_parse_text_response`: fold the line handler over
`response_text.split('\n')`; any exception raised inside propagates. -/
def parseTextResponse (s : String) : Except PyErr PyDict :=
  match (splitLines s).foldlM ptrLine (ptrInit, Option.none) with
  | .ok st => .ok st.1
  | .error e => .error e

/-- Embedding of `_create_fallback_response`. -/
def createFallbackResponse (s : String) : PyDict :=
  [(.str "summary", .str (if s.length > 500 then String.mk (s.data.take 500) ++ "..." else s)),
   (.str "key_points", .list [.str "Unable to parse structured response"]),
   (.str "important_terms", .dict []),
   (.str "deadlines_obligations", .list []),
   (.str "warnings", .list [.str "Please review the original document for important details"]),
   (.str "next_steps", .list [.str "Consider consulting with a legal professional"])]

/-- Model of `re.search(r'\x7b.*\x7d', s, re.DOTALL)`: the match starts at the
first opening brace that has a closing brace somewhere after it and extends
greedily to the last closing brace of the whole string. -/
def findSpanGo : List Char → Option (List Char)
  | [] => Option.none
  | c :: rest =>
    if c = '\x7b' && rest.contains '\x7d' then
      some (c :: (rest.reverse.dropWhile (fun x => x != '\x7d')).reverse)
    else findSpanGo rest

/-- The brace-delimited span `_parse_ai_response` feeds to `json.loads`. -/
def findJsonSpan (s : String) : Option String := (findSpanGo s.data).map String.mk

/-- JSON insignificant whitespace. -/
def jsonWs (c : Char) : Bool := c = ' ' || c = '\t' || c = '\n' || c = '\r'

/-- Skip JSON whitespace. -/
def skipJsonWs (l : List Char) : List Char := l.dropWhile jsonWs

/-- Consume a run of decimal digits, accumulating their value. -/
def parseDigitsGo : List Char → Nat → Nat × List Char
  | [], acc => (acc, [])
  | c :: rest, acc =>
    if c.isDigit then parseDigitsGo rest (acc * 10 + (c.toNat - 48)) else (acc, c :: rest)

/-- Parse the remainder of a JSON string literal (the opening quote already
consumed).  The common escapes are supported; `\uXXXX` escapes are not
modelled (they occur in none of the verified inputs). -/
def parseJsonStrGo : List Char → List Char → Option (String × List Char)
  | [], _ => Option.none
  | '"' :: rest, acc => some (String.mk acc.reverse, rest)
  | '\\' :: e :: rest2, acc =>
    if e = '"' then parseJsonStrGo rest2 ('"' :: acc)
    else if e = '\\' then parseJsonStrGo rest2 ('\\' :: acc)
    else if e = '/' then parseJsonStrGo rest2 ('/' :: acc)
    else if e = 'b' then parseJsonStrGo rest2 ('\x08' :: acc)
    else if e = 'f' then parseJsonStrGo rest2 ('\x0c' :: acc)
    else if e = 'n' then parseJsonStrGo rest2 ('\n' :: acc)
    else if e = 'r' then parseJsonStrGo rest2 ('\r' :: acc)
    else if e = 't' then parseJsonStrGo rest2 ('\t' :: acc)
    else Option.none
  | ['\\'], _ => Option.none
  | c :: rest, acc => parseJsonStrGo rest (c :: acc)

mutual

/-- Fuel-indexed recursive-descent JSON value parser modelling `json.loads`.
Real-number literals are not modelled (rejected); none of the verified
properties exercises them. -/
def parseJsonValue : Nat → List Char → Option (PyVal × List Char)
  | 0, _ => Option.none
  | Nat.succ fuel, l =>
    match skipJsonWs l with
    | [] => Option.none
    | c :: rest =>
      if c = '\x7b' then parseJsonObj fuel rest [] true
      else if c = '[' then parseJsonArr fuel rest [] true
      else if c = '"' then (parseJsonStrGo rest []).map (fun p => (.str p.1, p.2))
      else if c = 't' then
        if rest.take 3 = ['r', 'u', 'e'] then some (.bool true, rest.drop 3) else Option.none
      else if c = 'f' then
        if rest.take 4 = ['a', 'l', 's', 'e'] then some (.bool false, rest.drop 4) else Option.none
      else if c = 'n' then
        if rest.take 3 = ['u', 'l', 'l'] then some (.none, rest.drop 3) else Option.none
      else if c = '-' || c.isDigit then
        match (if c = '-' then rest else c :: rest) with
        | [] => Option.none
        | d :: ds =>
          if d.isDigit then
            match parseDigitsGo (d :: ds) 0 with
            | (n, cont) =>
              match cont with
              | '.' :: _ => Option.none
              | 'e' :: _ => Option.none
              | 'E' :: _ => Option.none
              | _ => some (.int (if c = '-' then -(n : Int) else (n : Int)), cont)
          else Option.none
      else Option.none

/-- Parse JSON object members; `allowClose` is true exactly when a closing
brace may come next (at the start, or right after a member, never after a
comma).  Duplicate keys overwrite dict-assignment style, as in Python. -/
def parseJsonObj : Nat → List Char → PyDict → Bool → Option (PyVal × List Char)
  | 0, _, _, _ => Option.none
  | Nat.succ fuel, l, acc, allowClose =>
    match skipJsonWs l with
    | '\x7d' :: rest => if allowClose then some (.dict acc, rest) else Option.none
    | '"' :: rest =>
      match parseJsonStrGo rest [] with
      | some (k, rest2) =>
        match skipJsonWs rest2 with
        | ':' :: rest3 =>
          match parseJsonValue fuel rest3 with
          | some (v, rest4) =>
            match skipJsonWs rest4 with
            | ',' :: rest5 => parseJsonObj fuel rest5 (dictSet acc (.str k) v) false
            | '\x7d' :: rest5 => some (.dict (dictSet acc (.str k) v), rest5)
            | _ => Option.none
          | Option.none => Option.none
        | _ => Option.none
      | Option.none => Option.none
    | _ => Option.none

/-- Parse JSON array elements; `allowClose` as for objects. -/
def parseJsonArr : Nat → List Char → List PyVal → Bool → Option (PyVal × List Char)
  | 0, _, _, _ => Option.none
  | Nat.succ fuel, l, acc, allowClose =>
    match skipJsonWs l with
    | ']' :: rest => if allowClose then some (.list acc.reverse, rest) else Option.none
    | l' =>
      match parseJsonValue fuel l' with
      | some (v, rest2) =>
        match skipJsonWs rest2 with
        | ',' :: rest3 => parseJsonArr fuel rest3 (v :: acc) false
        | ']' :: rest3 => some (.list (v :: acc).reverse, rest3)
        | _ => Option.none
      | Option.none => Option.none

end

/-- Embedding of `json.loads` on the sniffed span: parse one value and require
only whitespace to remain, else `json.JSONDecodeError`. -/
def jsonLoads (s : String) : Except PyErr PyVal :=
  match parseJsonValue (s.length + 1) s.data with
  | some (v, rest) =>
    if (skipJsonWs rest).isEmpty then .ok v else .error .jsonDecodeError
  | Option.none => .error .jsonDecodeError

/-- Embedding of `_parse_ai_response`.  Three-way structure of the source:
a brace span parsed successfully goes through `_validate_and_clean_content`
(the span necessarily parses to an object, so `pyItems` is exact); a span that
fails to parse lands in the `except json.JSONDecodeError` handler, which calls
`_parse_text_response` *outside* the protection of the sibling
`except Exception` handler, so any exception it raises propagates to the
caller; with no span at all, `_parse_text_response` is called inside the
`try`, and any exception it raises is absorbed into
`_create_fallback_response`. -/
def parseAiResponse (s : String) : Except PyErr PyDict :=
  match findJsonSpan s with
  | some span =>
    match jsonLoads span with
    | .ok v => .ok (validateAndCleanContent (pyItems v))
    | .error _ => parseTextResponse s
  | Option.none =>
    match parseTextResponse s with
    | .ok d => .ok d
    | .error _ => .ok (createFallbackResponse s)

/-- One truthiness-then-length check of `_calculate_confidence_score`:
`content.get(k) and len(content[k]) > threshold`.  `len` of a non-sized value
raises `TypeError` (only reachable on ill-shaped input, where the surrounding
`except` turns it into the 0.5 fallback). -/
def confCheck (v : PyVal) (threshold : Nat) : Except PyErr Bool :=
  if pyTruthy v then
    match pyLen v with
    | some n => .ok (decide (n > threshold))
    | Option.none => .error .typeError
  else .ok false

/-- Python's binary `min`, written as an explicit conditional. -/
def ratMin (a b : Rat) : Rat := if a ≤ b then a else b

/-- The pure score arithmetic of `_calculate_confidence_score`: base 0.5, the
four sequential bonus additions, then `min(score, 1.0)`. -/
def confSeq (b1 b2 b3 b4 : Bool) : Rat :=
  let s1 : Rat := if b1 then 0.5 + 0.2 else 0.5
  let s2 := if b2 then s1 + 0.1 else s1
  let s3 := if b3 then s2 + 0.1 else s2
  let s4 := if b4 then s3 + 0.1 else s3
  ratMin s4 1

/-- The body of `_calculate_confidence_score` inside its `try`: the four
truthiness/length checks run in source order (each can raise), and the pure
additions are folded into `confSeq` (hoisting pure arithmetic past the later
checks changes neither the value nor the error behavior). -/
def calcConfidenceScoreE (d : PyDict) : Except PyErr Rat := do
  let b1 ← confCheck (dictGetD d "summary") 50
  let b2 ← confCheck (dictGetD d "key_points") 0
  let b3 ← confCheck (dictGetD d "important_terms") 0
  let b4 ← confCheck (dictGetD d "next_steps") 0
  pure (confSeq b1 b2 b3 b4)

/-- Embedding of `_calculate_confidence_score` (the unused original-text
argument of the source is omitted); any exception falls back to 0.5. -/
def calcConfidenceScore (d : PyDict) : Rat :=
  match calcConfidenceScoreE d with
  | .ok q => q
  | .error _ => 0.5

/-- Sentence-boundary characters of `_estimate_reading_level`. -/
def isSentencePunct (c : Char) : Bool := c = '.' || c = '!' || c = '?'

/-- Embedding of `_estimate_reading_level`: split into sentences on `[.!?]+`
runs and into words on whitespace, compare the two averages against the
ascending thresholds. -/
def estimateReadingLevel (text : String) : String :=
  let sentences := splitRuns isSentencePunct text.data
  let words := pySplitWs text
  if sentences.isEmpty || words.isEmpty then "unknown"
  else
    let avgS : Rat := (words.length : Rat) / (sentences.length : Rat)
    let avgW : Rat := (((words.map List.length).sum : Nat) : Rat) / (words.length : Rat)
    if avgS < 10 ∧ avgW < 5 then "elementary"
    else if avgS < 15 ∧ avgW < 6 then "intermediate"
    else if avgS < 20 ∧ avgW < 7 then "high_school"
    else "college"

/-- Wrapper for `_estimate_reading_level` as called on `structured_content.get("summary",
"")`: a non-string argument makes the body raise `TypeError`, which the
surrounding `except` maps to "unknown". -/
def estimateReadingLevelV : PyVal → String
  | .str s => estimateReadingLevel s
  | _ => "unknown"

/-- Embedding of `_generate_simplified_content`'s result handling: an absent
or empty `response.text` is falsy and raises (`ModelCallFailure`); the
handler re-raises. -/
def generateSimplifiedContent : Option String → Except PyErr String
  | some t => if t != "" then .ok t else .error .generationFailure
  | Option.none => .error .generationFailure

/-- The `structured_content.update({...})` of `simplify_document`: both
quality signals are computed on the pre-update structure, then the five
metadata keys are inserted in the literal's order.  The wall-clock timestamp
is a parameter. -/
def addMetadata (d : PyDict) (ts lvl aud : String) : PyDict :=
  let conf := calcConfidenceScore d
  let rl := estimateReadingLevelV ((dictGet d (.str "summary")).getD (.str ""))
  let d := dictSet d (.str "confidence_score") (.rat conf)
  let d := dictSet d (.str "reading_level") (.str rl)
  let d := dictSet d (.str "processing_timestamp") (.str ts)
  let d := dictSet d (.str "simplification_level") (.str lvl)
  let d := dictSet d (.str "target_audience") (.str aud)
  d

/-- Embedding of `simplify_document`, parameterized over the text
preprocessor, the prompt constructor and the response normalizer exactly as
the service object holds them: all three are pure, total functions in the
source (`_preprocess_text`, `_create_simplification_prompt`,
`_parse_ai_response`), and the verified claims quantify over the first two.
The outer `try` of the source logs and re-raises, so it is behaviorally
transparent. -/
def simplifyDocumentWith (preprocessF : String → String)
    (promptF : String → String → String → String)
    (parseF : String → Except PyErr PyDict)
    (reply : Option String) (text lvl aud ts : String) : Except PyErr PyDict :=
  let cleaned := preprocessF text
  let _prompt := promptF cleaned lvl aud
  match generateSimplifiedContent reply with
  | .error e => .error e
  | .ok s =>
    match parseF s with
    | .error e => .error e
    | .ok d => .ok (addMetadata d ts lvl aud)

/-- Embedding of `answer_question`: the only fallible step inside its `try`
is the model call; its failure is caught and mapped to the fixed apology
answer with confidence 0.3, otherwise the stripped reply is returned with
confidence 0.7 when non-empty and 0.3 when empty. -/
def answerQuestion (preprocessF : String → String) (reply : Option String)
    (docText question aud : String) : PyDict :=
  let _cleaned := preprocessF docText
  let _q := question
  let _a := aud
  match generateSimplifiedContent reply with
  | .ok s =>
    let ans := pyStrip s
    [(.str "answer", .str ans),
     (.str "confidence_score", .rat (if ans.length > 0 then 0.7 else 0.3))]
  | .error _ =>
    [(.str "answer", .str "I\x27m sorry, I couldn\x27t find the answer in the document."),
     (.str "confidence_score", .rat 0.3)]

/-- The closed document-type enumeration of `app/models/schemas.py`. -/
inductive DocumentType where
  | pdf
  | doc
  | docx
  | image
  | text

/-- The PDF acceptance rule `if text and len(text.strip()) > 100`. -/
def pdfAccept : Option String → Bool
  | Option.none => false
  | some t => t != "" && decide ((pyStrip t).length > 100)

/-- Method `_extract_pdf_with_documentai` is hardcoded in the source to return
`None` ("not fully configured"). -/
def extractPdfWithDocumentai : Option String := Option.none

/-- Method `_extract_pdf_with_ocr` is hardcoded in the source to return `None`
(PDF-to-image conversion is a TODO). -/
def extractPdfWithOcr : Option String := Option.none

/-- Embedding of `_extract_pdf_text`: Document AI (when the client exists),
then pdfplumber, then PyPDF2, each gated by the acceptance rule, then the OCR
fallback returned unconditionally.  The two library extractors are oracles:
their results on the given bytes are parameters. -/
def extractPdfText (daClient : Bool) (pdfplumberRes pypdf2Res : Option String) :
    Option String :=
  if daClient && pdfAccept extractPdfWithDocumentai then extractPdfWithDocumentai
  else if pdfAccept pdfplumberRes then pdfplumberRes
  else if pdfAccept pypdf2Res then pypdf2Res
  else extractPdfWithOcr

/-- The structural content of a parsed DOCX document: paragraph texts, and
tables as rows of cell texts. -/
structure DocxDoc where
  paragraphs : List String
  tables : List (List (List String))

/-- One table row of `_extract_docx_text`: cells with non-blank text are
stripped and joined with " | "; a row with no such cells contributes
nothing. -/
def docxRowText (row : List String) : Option String :=
  let cells := (row.filter (fun c => pyStrip c != "")).map pyStrip
  if cells.isEmpty then Option.none else some (String.intercalate " | " cells)

/-- The `text_parts` list of `_extract_docx_text`: non-blank paragraphs kept
verbatim, then the joined table rows. -/
def docxParts (doc : DocxDoc) : List String :=
  doc.paragraphs.filter (fun p => pyStrip p != "")
    ++ (doc.tables.map (fun tbl => tbl.filterMap docxRowText)).flatten

/-- Embedding of `_extract_docx_text` on a document that parsed:
`'\n\n'.join(text_parts)` — note an empty document yields the empty string,
not `None`. -/
def extractDocxTextOk (doc : DocxDoc) : String :=
  String.intercalate "\n\n" (docxParts doc)

/-- Embedding of `_extract_docx_text`; `Option.none` input models
`Document(...)` raising on unparseable bytes, which the handler maps to
`None`. -/
def extractDocxText : Option DocxDoc → Option String
  | Option.none => Option.none
  | some doc => some (extractDocxTextOk doc)

/-- Embedding of `_extract_image_text`: Google Vision first when the client
exists, accepted by `if text and len(text.strip()) > 10`, else the Tesseract
fallback result is returned unconditionally. -/
def extractImageText (visionClient : Bool) (visionRes tessRes : Option String) :
    Option String :=
  if visionClient then
    match visionRes with
    | some t => if t != "" && decide ((pyStrip t).length > 10) then some t else tessRes
    | Option.none => tessRes
  else tessRes

/-- Embedding of the `extract_text` dispatcher.  `contentTruthy` is the
`if not document_content` download gate (false for a failed download or empty
bytes); the per-format library results on those bytes are oracle parameters;
`decoded` is `document_content.decode('utf-8', errors='ignore')`. -/
def extractText (ftype : DocumentType) (contentTruthy : Bool)
    (daClient : Bool) (pdfplumberRes pypdf2Res : Option String)
    (docxDoc : Option DocxDoc)
    (visionClient : Bool) (visionRes tessRes : Option String)
    (decoded : String) : Option String :=
  if !contentTruthy then Option.none
  else
    match ftype with
    | .pdf => extractPdfText daClient pdfplumberRes pypdf2Res
    | .doc => extractDocxText docxDoc
    | .docx => extractDocxText docxDoc
    | .image => extractImageText visionClient visionRes tessRes
    | .text => some decoded

/-- Spec-side formulation of the dispatcher (written from the spec's words,
for the refinement theorem): try the listed strategy results in order and
return the first accepted one, else the fallback. -/
def acceptFirstWith (accept : Option String → Bool) :
    List (Option String) → Option String → Option String
  | [], fallback => fallback
  | r :: rs, fallback => if accept r then r else acceptFirstWith accept rs fallback

theorem pyKeyEq_str (a b : String) : pyKeyEq (.str a) (.str b) = (a == b) := rfl

theorem eq_str_of_pyKeyEq_left {k : PyVal} {a : String} (h : pyKeyEq k (.str a) = true) :
    k = .str a := by
  cases k <;> simp_all [pyKeyEq]

theorem eq_str_of_pyKeyEq_right {k : PyVal} {a : String} (h : pyKeyEq (.str a) k = true) :
    k = .str a := by
  cases k <;> simp_all [pyKeyEq]

theorem pyKeyEq_str_comm (a : String) (k : PyVal) : pyKeyEq (.str a) k = pyKeyEq k (.str a) := by
  cases k <;> simp only [pyKeyEq]
  next s =>
    by_cases h : a = s
    · subst h; rfl
    · rw [beq_eq_false_iff_ne.mpr h, beq_eq_false_iff_ne.mpr (Ne.symm h)]

theorem dictGet_dictSet (d : PyDict) (a : String) (v : PyVal) (k : PyVal) :
    dictGet (dictSet d (.str a) v) k =
      if pyKeyEq (.str a) k then some v else dictGet d k := by
  induction d with
  | nil => rfl
  | cons e rest ih =>
    obtain ⟨k0, v0⟩ := e
    by_cases h0 : pyKeyEq k0 (.str a) = true
    · have hk0 : k0 = .str a := eq_str_of_pyKeyEq_left h0
      subst hk0
      simp only [dictSet, h0, if_true, dictGet]
      by_cases h1 : pyKeyEq (.str a) k = true <;> simp [h1]
    · simp only [dictSet, h0, if_false, Bool.false_eq_true, dictGet, ih]
      by_cases h1 : pyKeyEq (.str a) k = true
      · have hk : k = .str a := eq_str_of_pyKeyEq_right h1
        subst hk
        rw [pyKeyEq_str_comm] at h1
        simp [h1, h0]
      · simp [h1]

theorem dictSet_of_get_eq {d : PyDict} {a : String} {v : PyVal}
    (h : dictGet d (.str a) = some v) : dictSet d (.str a) v = d := by
  induction d with
  | nil => simp [dictGet] at h
  | cons e rest ih =>
    obtain ⟨k0, v0⟩ := e
    by_cases h0 : pyKeyEq k0 (.str a) = true
    · have hk0 : k0 = .str a := eq_str_of_pyKeyEq_left h0
      subst hk0
      simp only [dictGet, h0, if_true, Option.some.injEq] at h
      simp [dictSet, h0, h]
    · simp only [dictGet, h0, Bool.false_eq_true, if_false] at h
      simp [dictSet, h0, ih h]

theorem dictSet_of_get_none {d : PyDict} {a : String} (v : PyVal)
    (h : dictGet d (.str a) = Option.none) : dictSet d (.str a) v = d ++ [(.str a, v)] := by
  induction d with
  | nil => rfl
  | cons e rest ih =>
    obtain ⟨k0, v0⟩ := e
    by_cases h0 : pyKeyEq k0 (.str a) = true
    · rw [dictGet, if_pos h0] at h
      exact absurd h (by simp)
    · simp only [dictGet, h0, Bool.false_eq_true, if_false] at h
      simp [dictSet, h0, ih h]

theorem mem_dictSet {kv : PyVal × PyVal} {d : PyDict} {k v : PyVal}
    (h : kv ∈ dictSet d k v) : kv ∈ d ∨ kv = (k, v) := by
  induction d with
  | nil => simp only [dictSet, List.mem_singleton] at h; exact Or.inr h
  | cons e rest ih =>
    by_cases h0 : pyKeyEq e.1 k = true
    · obtain ⟨k0, v0⟩ := e
      simp only [dictSet] at h
      rw [if_pos h0] at h
      rcases List.mem_cons.mp h with h | h
      · exact Or.inr h
      · exact Or.inl (List.mem_cons_of_mem _ h)
    · obtain ⟨k0, v0⟩ := e
      simp only [dictSet] at h
      rw [if_neg h0] at h
      rcases List.mem_cons.mp h with h | h
      · exact Or.inl (h ▸ List.mem_cons_self _ _)
      · rcases ih h with h | h
        · exact Or.inl (List.mem_cons_of_mem _ h)
        · exact Or.inr h

theorem dropWhile_idem {α : Type} (p : α → Bool) (l : List α) :
    (l.dropWhile p).dropWhile p = l.dropWhile p := by
  induction l with
  | nil => rfl
  | cons c t ih =>
    rw [List.dropWhile_cons]
    split
    · exact ih
    · next hx => rw [List.dropWhile_cons, if_neg hx]

theorem head_not_of_dropWhile_cons {α : Type} {p : α → Bool} {l : List α} {c : α}
    {t : List α} (h : l.dropWhile p = c :: t) : p c = false := by
  induction l with
  | nil => exact absurd h (by simp)
  | cons x l' ih =>
    rw [List.dropWhile_cons] at h
    split at h
    · exact ih h
    · next hx =>
      injection h with h1 _
      subst h1
      exact Bool.eq_false_iff.mpr hx

theorem exists_dropWhile_suffix {α : Type} (p : α → Bool) (l : List α) :
    ∃ t, l = t ++ l.dropWhile p := by
  induction l with
  | nil => exact ⟨[], rfl⟩
  | cons c l' ih =>
    rw [List.dropWhile_cons]
    split
    · obtain ⟨t, ht⟩ := ih
      exact ⟨c :: t, by rw [List.cons_append, ← ht]⟩
    · exact ⟨[], rfl⟩

theorem stripLeft_stripLeft (l : List Char) : stripLeft (stripLeft l) = stripLeft l :=
  dropWhile_idem _ _

theorem stripRight_stripRight (l : List Char) : stripRight (stripRight l) = stripRight l := by
  unfold stripRight
  rw [List.reverse_reverse, dropWhile_idem]

theorem stripLeft_stripRight_of_fix {l : List Char} (h : stripLeft l = l) :
    stripLeft (stripRight l) = stripRight l := by
  obtain ⟨t, ht⟩ := exists_dropWhile_suffix isPyWs l.reverse
  have hl : l = stripRight l ++ t.reverse := by
    conv_lhs => rw [← l.reverse_reverse, ht]
    rw [List.reverse_append]
    rfl
  cases hdw : stripRight l with
  | nil => rfl
  | cons c m =>
    have hlc : l.dropWhile isPyWs = c :: (m ++ t.reverse) := by
      rw [show l.dropWhile isPyWs = stripLeft l from rfl, h, hl, hdw, List.cons_append]
    have hc : isPyWs c = false := head_not_of_dropWhile_cons hlc
    show (c :: m).dropWhile isPyWs = c :: m
    rw [List.dropWhile_cons, if_neg (by simp [hc])]

theorem pyStrip_idem (s : String) : pyStrip (pyStrip s) = pyStrip s := by
  show String.mk (stripRight (stripLeft (stripRight (stripLeft s.data)))) =
    String.mk (stripRight (stripLeft s.data))
  rw [stripLeft_stripRight_of_fix (stripLeft_stripLeft _), stripRight_stripRight]

theorem pyStrip_empty : pyStrip "" = "" := rfl

theorem ne_empty_of_pyStrip_ne {t : String} (h : pyStrip t ≠ "") : t ≠ "" := by
  intro ht
  rw [ht] at h
  exact h pyStrip_empty

/-- Elements of a cleaned string list: stripped non-empty strings. -/
def CleanL (xs : List PyVal) : Prop :=
  ∀ x ∈ xs, ∃ s, x = .str s ∧ pyStrip s = s ∧ s ≠ ""

theorem cleanStrList_clean (xs : List PyVal) : CleanL (cleanStrList xs) := by
  intro x hx
  unfold cleanStrList at hx
  simp only [List.mem_map, List.mem_filter] at hx
  obtain ⟨s, ⟨⟨p, hp, rfl⟩, hsNe⟩, rfl⟩ := hx
  exact ⟨_, rfl, pyStrip_idem _, by simpa using hsNe⟩

theorem cleanStrList_of_clean : ∀ {xs : List PyVal}, CleanL xs → cleanStrList xs = xs := by
  intro xs
  induction xs with
  | nil => intro _; rfl
  | cons x t ih =>
    intro h
    obtain ⟨s, rfl, hstrip, hne⟩ := h x (List.mem_cons_self _ _)
    unfold cleanStrList
    rw [List.map_cons, show pyStrip (pyStr (PyVal.str s)) = s from hstrip,
      List.filter_cons_of_pos (by simpa using hne), List.map_cons]
    have ht := ih (fun y hy => h y (List.mem_cons_of_mem _ hy))
    unfold cleanStrList at ht
    rw [ht]

/-- Entries of a cleaned terms dict: stripped non-empty string keys and
values. -/
def CleanD (d : PyDict) : Prop :=
  ∀ kv ∈ d, ∃ a b, kv = (.str a, .str b) ∧ pyStrip a = a ∧ a ≠ "" ∧ pyStrip b = b ∧ b ≠ ""

/-- No two entries share a key (here: no later entry answers a lookup of an
earlier entry's key). -/
def NodupKeys : PyDict → Prop
  | [] => True
  | kv :: rest => dictGet rest kv.1 = Option.none ∧ NodupKeys rest

theorem nodupKeys_dictSet {d : PyDict} (a : String) (v : PyVal) (h : NodupKeys d) :
    NodupKeys (dictSet d (.str a) v) := by
  induction d with
  | nil => exact ⟨rfl, trivial⟩
  | cons e rest ih =>
    obtain ⟨k0, v0⟩ := e
    obtain ⟨h1, h2⟩ := h
    by_cases h0 : pyKeyEq k0 (.str a) = true
    · have hk0 := eq_str_of_pyKeyEq_left h0
      subst hk0
      simp only [dictSet]
      rw [if_pos h0]
      exact ⟨h1, h2⟩
    · simp only [dictSet]
      rw [if_neg h0]
      refine ⟨?_, ih h2⟩
      rw [dictGet_dictSet]
      have hne : pyKeyEq (.str a) k0 = false := by
        rw [pyKeyEq_str_comm]
        exact Bool.eq_false_iff.mpr h0
      rw [if_neg (by simp [hne])]
      exact h1

/-- The hypothesis the idempotence of the repair pass genuinely needs: no
`important_terms` entry has a truthy key or value that strips to the empty
string (a whitespace-only key or value defeats it, see the counterexample). -/
def TermsSrcOK (es : List (PyVal × PyVal)) : Prop :=
  ∀ kv ∈ es, pyTruthy kv.1 = true → pyTruthy kv.2 = true →
    pyStrip (pyStr kv.1) ≠ "" ∧ pyStrip (pyStr kv.2) ≠ ""

theorem cleanTerms_fold_clean (es : List (PyVal × PyVal)) :
    ∀ acc, TermsSrcOK es → CleanD acc → NodupKeys acc →
      CleanD (es.foldl cleanTermsStep acc) ∧ NodupKeys (es.foldl cleanTermsStep acc) := by
  induction es with
  | nil => exact fun acc _ hc hn => ⟨hc, hn⟩
  | cons kv t ih =>
    intro acc hok hc hn
    rw [List.foldl_cons]
    refine ih _ (fun y hy h1 h2 => hok y (List.mem_cons_of_mem _ hy) h1 h2) ?_ ?_
    · unfold cleanTermsStep
      split
      · next htr =>
        obtain ⟨ht1, ht2⟩ : pyTruthy kv.1 = true ∧ pyTruthy kv.2 = true := by
          simpa using htr
        obtain ⟨hne1, hne2⟩ := hok kv (List.mem_cons_self _ _) ht1 ht2
        intro x hx
        rcases mem_dictSet hx with hx | hx
        · exact hc x hx
        · exact hx ▸ ⟨_, _, rfl, pyStrip_idem _, hne1, pyStrip_idem _, hne2⟩
      · exact hc
    · unfold cleanTermsStep
      split
      · exact nodupKeys_dictSet _ _ hn
      · exact hn

theorem cleanTerms_clean {es : List (PyVal × PyVal)} (h : TermsSrcOK es) :
    CleanD (cleanTerms es) ∧ NodupKeys (cleanTerms es) :=
  cleanTerms_fold_clean es [] h (fun x hx => absurd hx (List.not_mem_nil x)) trivial

theorem dictGet_append (l1 l2 : PyDict) (k : PyVal) :
    dictGet (l1 ++ l2) k =
      match dictGet l1 k with
      | some v => some v
      | Option.none => dictGet l2 k := by
  induction l1 with
  | nil => rfl
  | cons e rest ih =>
    obtain ⟨k0, v0⟩ := e
    by_cases h0 : pyKeyEq k0 k = true
    · simp [dictGet, h0]
    · simp [dictGet, h0, ih]

theorem keyEq_false_of_get_none {d : PyDict} {k : PyVal}
    (h : dictGet d k = Option.none) : ∀ kv ∈ d, pyKeyEq kv.1 k = false := by
  induction d with
  | nil => intro kv hkv; exact absurd hkv (List.not_mem_nil kv)
  | cons e rest ih =>
    intro kv hkv
    by_cases h0 : pyKeyEq e.1 k = true
    · obtain ⟨k0, v0⟩ := e
      rw [dictGet, if_pos h0] at h
      exact absurd h (by simp)
    · rcases List.mem_cons.mp hkv with heq | hmem
      · rw [heq]
        exact Bool.eq_false_iff.mpr h0
      · obtain ⟨k0, v0⟩ := e
        rw [dictGet, if_neg h0] at h
        exact ih h kv hmem

theorem foldl_cleanTermsStep_id : ∀ (d : PyDict), ∀ acc : PyDict, CleanD d → NodupKeys d →
    (∀ kv ∈ d, dictGet acc kv.1 = Option.none) →
    d.foldl cleanTermsStep acc = acc ++ d := by
  intro d
  induction d with
  | nil => intro acc _ _ _; simp
  | cons kv t ih =>
    intro acc hc hn habs
    obtain ⟨a, b, hkv, hsa, hna, hsb, hnb⟩ := hc kv (List.mem_cons_self _ _)
    subst hkv
    rw [List.foldl_cons]
    have hstep : cleanTermsStep acc (.str a, .str b) = acc ++ [(.str a, .str b)] := by
      unfold cleanTermsStep
      rw [if_pos (by simp [pyTruthy, hna, hnb]),
        show pyStrip (pyStr (PyVal.str a)) = a from hsa,
        show pyStrip (pyStr (PyVal.str b)) = b from hsb]
      exact dictSet_of_get_none _ (habs _ (List.mem_cons_self _ _))
    have habs2 : ∀ kv' ∈ t, dictGet (acc ++ [((PyVal.str a), PyVal.str b)]) kv'.1 = Option.none := by
      intro kv' hkv'
      rw [dictGet_append, habs kv' (List.mem_cons_of_mem _ hkv')]
      have h1 : pyKeyEq kv'.1 (.str a) = false :=
        keyEq_false_of_get_none hn.1 kv' hkv'
      rw [← pyKeyEq_str_comm] at h1
      simp [dictGet, h1]
    rw [hstep,
      ih _ (fun y hy => hc y (List.mem_cons_of_mem _ hy)) hn.2 habs2,
      List.append_assoc, List.singleton_append]

theorem cleanTerms_of_clean {d : PyDict} (hc : CleanD d) (hn : NodupKeys d) :
    cleanTerms d = d := by
  unfold cleanTerms
  rw [foldl_cleanTermsStep_id d [] hc hn (fun kv _ => rfl), List.nil_append]

theorem dictGet_set_str (d : PyDict) (a b : String) (v : PyVal) :
    dictGet (dictSet d (.str a) v) (.str b) = if a = b then some v else dictGet d (.str b) := by
  rw [dictGet_dictSet, pyKeyEq_str]
  by_cases h : a = b <;> simp [h]

theorem validate_get_summary (d : PyDict) :
    dictGet (validateAndCleanContent d) (.str "summary") =
      some (.str (pyStrip (pyStr (dictGetD (ensureFields d) "summary")))) := by
  simp [validateAndCleanContent, dictGet_set_str, dictGetD]

theorem validate_get_kp (d : PyDict) :
    dictGet (validateAndCleanContent d) (.str "key_points") =
      some (.list (cleanStrList (pyIter (dictGetD (ensureFields d) "key_points")))) := by
  simp [validateAndCleanContent, dictGet_set_str, dictGetD]

theorem validate_get_deadlines (d : PyDict) :
    dictGet (validateAndCleanContent d) (.str "deadlines_obligations") =
      some (.list (cleanStrList (pyIter (dictGetD (ensureFields d) "deadlines_obligations")))) := by
  simp [validateAndCleanContent, dictGet_set_str, dictGetD]

theorem validate_get_warnings (d : PyDict) :
    dictGet (validateAndCleanContent d) (.str "warnings") =
      some (.list (cleanStrList (pyIter (dictGetD (ensureFields d) "warnings")))) := by
  simp [validateAndCleanContent, dictGet_set_str, dictGetD]

theorem validate_get_next (d : PyDict) :
    dictGet (validateAndCleanContent d) (.str "next_steps") =
      some (.list (cleanStrList (pyIter (dictGetD (ensureFields d) "next_steps")))) := by
  simp [validateAndCleanContent, dictGet_set_str, dictGetD]

theorem validate_get_terms (d : PyDict) :
    dictGet (validateAndCleanContent d) (.str "important_terms") =
      some (.dict (cleanTerms (pyItems (dictGetD (ensureFields d) "important_terms")))) := by
  simp [validateAndCleanContent, dictGet_set_str, dictGetD]

/-- The shape invariant the repair pass establishes: all six fields present
with the correct container type and fully cleaned contents. -/
def CleanContent (d : PyDict) : Prop :=
  (∃ s, dictGet d (.str "summary") = some (.str s) ∧ pyStrip s = s) ∧
  (∃ xs, dictGet d (.str "key_points") = some (.list xs) ∧ CleanL xs) ∧
  (∃ xs, dictGet d (.str "deadlines_obligations") = some (.list xs) ∧ CleanL xs) ∧
  (∃ xs, dictGet d (.str "warnings") = some (.list xs) ∧ CleanL xs) ∧
  (∃ xs, dictGet d (.str "next_steps") = some (.list xs) ∧ CleanL xs) ∧
  (∃ es, dictGet d (.str "important_terms") = some (.dict es) ∧ CleanD es ∧ NodupKeys es)

/-- The side condition under which the repair pass is idempotent: no
`important_terms` entry (after the coercion stage) has a truthy key or value
whose `str()` strips to the empty string. -/
def termsOK (d : PyDict) : Prop :=
  TermsSrcOK (pyItems (dictGetD (ensureFields d) "important_terms"))

theorem validate_cleanContent (d : PyDict) (h : termsOK d) :
    CleanContent (validateAndCleanContent d) :=
  ⟨⟨_, validate_get_summary d, pyStrip_idem _⟩,
   ⟨_, validate_get_kp d, cleanStrList_clean _⟩,
   ⟨_, validate_get_deadlines d, cleanStrList_clean _⟩,
   ⟨_, validate_get_warnings d, cleanStrList_clean _⟩,
   ⟨_, validate_get_next d, cleanStrList_clean _⟩,
   ⟨_, validate_get_terms d, (cleanTerms_clean h).1, (cleanTerms_clean h).2⟩⟩

theorem ensureField_summary {v : PyDict} {x : PyVal}
    (h : dictGet v (.str "summary") = some x) :
    ensureField v "summary" (.str "") = v := by
  unfold ensureField
  rw [h]
  simp

theorem ensureField_kp {v : PyDict} {xs : List PyVal}
    (h : dictGet v (.str "key_points") = some (.list xs)) :
    ensureField v "key_points" (.list []) = v := by
  unfold ensureField
  rw [h]
  simp

theorem ensureField_terms {v : PyDict} {es : List (PyVal × PyVal)}
    (h : dictGet v (.str "important_terms") = some (.dict es)) :
    ensureField v "important_terms" (.dict []) = v := by
  unfold ensureField
  rw [h]
  simp

theorem ensureField_deadlines {v : PyDict} {xs : List PyVal}
    (h : dictGet v (.str "deadlines_obligations") = some (.list xs)) :
    ensureField v "deadlines_obligations" (.list []) = v := by
  unfold ensureField
  rw [h]
  simp

theorem ensureField_warnings {v : PyDict} {xs : List PyVal}
    (h : dictGet v (.str "warnings") = some (.list xs)) :
    ensureField v "warnings" (.list []) = v := by
  unfold ensureField
  rw [h]
  simp

theorem ensureField_next {v : PyDict} {xs : List PyVal}
    (h : dictGet v (.str "next_steps") = some (.list xs)) :
    ensureField v "next_steps" (.list []) = v := by
  unfold ensureField
  rw [h]
  simp

theorem ensureFields_of_clean {v : PyDict} (h : CleanContent v) : ensureFields v = v := by
  obtain ⟨⟨s, hs, _⟩, ⟨kp, hkp, _⟩, ⟨dl, hdl, _⟩, ⟨wr, hwr, _⟩, ⟨ns, hns, _⟩,
    ⟨tm, htm, _, _⟩⟩ := h
  unfold ensureFields requiredDefaults
  simp only [List.foldl_cons, List.foldl_nil]
  rw [ensureField_summary hs, ensureField_kp hkp, ensureField_terms htm,
    ensureField_deadlines hdl, ensureField_warnings hwr, ensureField_next hns]

theorem validate_of_clean {v : PyDict} (h : CleanContent v) :
    validateAndCleanContent v = v := by
  have he : ensureFields v = v := ensureFields_of_clean h
  obtain ⟨⟨s, hs, hss⟩, ⟨kp, hkp, hkpc⟩, ⟨dl, hdl, hdlc⟩, ⟨wr, hwr, hwrc⟩,
    ⟨ns, hns, hnsc⟩, ⟨tm, htm, htmc, htmn⟩⟩ := h
  simp only [validateAndCleanContent]
  rw [he]
  have hA1 : PyVal.str (pyStrip (pyStr (dictGetD v "summary"))) = .str s := by
    rw [dictGetD, hs]
    show PyVal.str (pyStrip s) = PyVal.str s
    rw [hss]
  rw [hA1, dictSet_of_get_eq hs]
  have hA2 : PyVal.list (cleanStrList (pyIter (dictGetD v "key_points"))) = .list kp := by
    rw [dictGetD, hkp]
    show PyVal.list (cleanStrList kp) = PyVal.list kp
    rw [cleanStrList_of_clean hkpc]
  rw [hA2, dictSet_of_get_eq hkp]
  have hA3 : PyVal.list (cleanStrList (pyIter (dictGetD v "deadlines_obligations"))) = .list dl := by
    rw [dictGetD, hdl]
    show PyVal.list (cleanStrList dl) = PyVal.list dl
    rw [cleanStrList_of_clean hdlc]
  rw [hA3, dictSet_of_get_eq hdl]
  have hA4 : PyVal.list (cleanStrList (pyIter (dictGetD v "warnings"))) = .list wr := by
    rw [dictGetD, hwr]
    show PyVal.list (cleanStrList wr) = PyVal.list wr
    rw [cleanStrList_of_clean hwrc]
  rw [hA4, dictSet_of_get_eq hwr]
  have hA5 : PyVal.list (cleanStrList (pyIter (dictGetD v "next_steps"))) = .list ns := by
    rw [dictGetD, hns]
    show PyVal.list (cleanStrList ns) = PyVal.list ns
    rw [cleanStrList_of_clean hnsc]
  rw [hA5, dictSet_of_get_eq hns]
  have hA6 : PyVal.dict (cleanTerms (pyItems (dictGetD v "important_terms"))) = .dict tm := by
    rw [dictGetD, htm]
    show PyVal.dict (cleanTerms tm) = PyVal.dict tm
    rw [cleanTerms_of_clean htmc htmn]
  rw [hA6, dictSet_of_get_eq htm]

/-- A reply whose brace span is not valid JSON and whose text body switches
the section pointer to "summary" and then presents a bullet line. -/
def c1FailingInput : String := "Summary\n- item\n\x7bnot json\x7d"

/-- C1: claimed — `_parse_ai_response` returns a well-shaped six-field
structure, without raising, for every raw reply.  Refuted by the code: on
`c1FailingInput` the brace span fails `json.loads`, so tier 2 runs inside the
`except json.JSONDecodeError` handler; there `content["summary"].append`
raises `AttributeError` (the summary is a string), and an exception raised
inside an `except` clause is not caught by the sibling `except Exception`
clause of the same `try`, so it escapes `_parse_ai_response`.  The tier-3
fallback that exists precisely to guarantee total coverage is bypassed: the
code contradicts its own design intent. -/
theorem c1_parse_ai_response_raises_attribute_error :
    parseAiResponse c1FailingInput = .error .attributeError := by rfl

/-- A mapping whose `important_terms` has a whitespace-only (hence truthy)
key: stripped to `""` by the first pass, dropped by the second. -/
def c4Bad : PyDict := [(.str "important_terms", .dict [(.str " ", .str "x")])]

/-- C4 counterexample: `_validate_and_clean_content` is not idempotent on
every input mapping — on `c4Bad` the first pass keeps the entry with its key
stripped to the empty string and the second pass drops it. -/
theorem c4_validate_not_idempotent :
    validateAndCleanContent (validateAndCleanContent c4Bad) ≠
      validateAndCleanContent c4Bad := by
  intro h
  have h2 : dictGetD (validateAndCleanContent (validateAndCleanContent c4Bad)) "important_terms"
      = dictGetD (validateAndCleanContent c4Bad) "important_terms" := by rw [h]
  have h3 : (PyVal.dict [] : PyVal) = PyVal.dict [(.str "", .str "x")] := h2
  injection h3 with h4
  exact List.noConfusion h4

/-- C4 (amended): the field-validation/repair pass is idempotent on every
input mapping whose `important_terms` entries have no truthy key or value
that strips to the empty string (`termsOK`); with such an entry the pass
emits an empty-string key or value on the first application and drops it on
the second. -/
theorem c4_validate_idempotent_on_safe_terms (d : PyDict) (h : termsOK d) :
    validateAndCleanContent (validateAndCleanContent d) = validateAndCleanContent d :=
  validate_of_clean (validate_cleanContent d h)

/-- A mapping satisfying the `termsOK` side condition. -/
def c4Good : PyDict :=
  [(.str "important_terms", .dict [(.str "fee", .str " monthly charge ")]),
   (.str "summary", .str " hi ")]

theorem c4_validate_idempotent_on_safe_terms_witness :
    termsOK c4Good ∧
      validateAndCleanContent (validateAndCleanContent c4Good) =
        validateAndCleanContent c4Good :=
  ⟨by unfold termsOK TermsSrcOK; decide,
   c4_validate_idempotent_on_safe_terms c4Good (by unfold termsOK TermsSrcOK; decide)⟩

/-- A braceless reply: tier-2 heuristic parse appends the empty remainder of
the bare bullet "- " to `key_points`. -/
def c5Input : String := "key points:\n- "

/-- The structure tier 2 returns for `c5Input` (an empty string kept inside
`key_points`). -/
def c5Tier2Output : PyDict :=
  [(.str "summary", .str ""), (.str "key_points", .list [.str ""]),
   (.str "important_terms", .dict []), (.str "deadlines_obligations", .list []),
   (.str "warnings", .list []), (.str "next_steps", .list [])]

/-- C5 counterexample: the claim that every structure returned by tier 2 is a
fixed point of the repair pass fails — `_parse_ai_response` returns the tier-2
result of `c5Input` as-is, and the repair pass would change it (it drops the
empty string from `key_points`), so the pass did not run after tier 2. -/
theorem c5_tier2_output_not_fixed_point :
    parseAiResponse c5Input = .ok c5Tier2Output ∧
      validateAndCleanContent c5Tier2Output ≠ c5Tier2Output := by
  refine ⟨by rfl, ?_⟩
  intro h
  have h2 : dictGetD (validateAndCleanContent c5Tier2Output) "key_points"
      = dictGetD c5Tier2Output "key_points" := by rw [h]
  have h3 : (PyVal.list [] : PyVal) = PyVal.list [.str ""] := h2
  injection h3 with h4
  exact List.noConfusion h4

/-- C5 (amended): the field-validation/repair pass runs on the parsed result
before return only for tier 1 — a brace span that parses is always routed
through `_validate_and_clean_content` — while a tier-2 heuristic result is
returned exactly as `_parse_text_response` produced it, without the pass. -/
theorem c5_validation_only_after_tier1 :
    (∀ (s span : String) (es : List (PyVal × PyVal)),
      findJsonSpan s = some span → jsonLoads span = .ok (.dict es) →
      parseAiResponse s = .ok (validateAndCleanContent es)) ∧
    (∀ (s : String) (d : PyDict),
      findJsonSpan s = Option.none → parseTextResponse s = .ok d →
      parseAiResponse s = .ok d) := by
  constructor
  · intro s span es h1 h2
    simp [parseAiResponse, h1, h2, pyItems]
  · intro s d h1 h2
    simp [parseAiResponse, h1, h2]

theorem c5_validation_only_after_tier1_witness :
    parseAiResponse "\x7b\"a\": 1\x7d" =
      .ok (validateAndCleanContent [(.str "a", .int 1)]) ∧
    parseAiResponse "no braces here" =
      .ok [(.str "summary", .str ""), (.str "key_points", .list []),
        (.str "important_terms", .dict []), (.str "deadlines_obligations", .list []),
        (.str "warnings", .list []), (.str "next_steps", .list [])] :=
  ⟨c5_validation_only_after_tier1.1 _ _ _ rfl rfl,
   c5_validation_only_after_tier1.2 _ _ rfl rfl⟩

theorem strip_len_pos_ne (t : String) (h : 0 < (pyStrip t).length) : t ≠ "" := by
  intro ht
  subst ht
  rw [pyStrip_empty] at h
  simp at h

/-- The image acceptance rule `if text and len(text.strip()) > 10`, named for
the refinement statement. -/
def imgAccept : Option String → Bool
  | Option.none => false
  | some t => t != "" && decide ((pyStrip t).length > 10)

/-- Exactly 100 characters of non-whitespace text. -/
def c2Hundred : String := String.mk (List.replicate 100 'a')

/-- A result of 150 non-whitespace characters (clears the threshold). -/
def c2LongText : String := String.mk (List.replicate 150 'b')

set_option maxRecDepth 16384 in
/-- C2 counterexample: a strategy result whose trimmed length is exactly 100
characters is NOT accepted — the dispatcher skips it and returns the next
strategy's output, refuting the "≥ 100 accepted immediately" reading. -/
theorem c2_exactly_100_rejected :
    extractPdfText false (some c2Hundred) (some c2LongText) = some c2LongText ∧
      pyStrip c2Hundred = c2Hundred ∧ c2Hundred.length = 100 :=
  ⟨rfl, rfl, rfl⟩

/-- C2 (amended): for each multi-strategy type, the dispatcher equals
first-accepted-in-declared-order with an acceptance rule of *strictly more
than* the threshold trimmed characters (100 for PDF, 10 for image); a
below-threshold-first / above-threshold-second pair yields the second. -/
theorem c2_dispatcher_order_strict_threshold :
    (∀ (da : Bool) (pp py : Option String),
      extractPdfText da pp py =
        acceptFirstWith pdfAccept
          [if da then extractPdfWithDocumentai else Option.none, pp, py]
          extractPdfWithOcr) ∧
    (∀ t : String, pdfAccept (some t) = true ↔ (pyStrip t).length > 100) ∧
    (∀ (da : Bool) (pp py : String),
      pdfAccept (some pp) = false → pdfAccept (some py) = true →
      extractPdfText da (some pp) (some py) = some py) ∧
    (∀ (vc : Bool) (vr tr : Option String),
      extractImageText vc vr tr =
        acceptFirstWith imgAccept [if vc then vr else Option.none] tr) := by
  refine ⟨?_, ?_, ?_, ?_⟩
  · intro da pp py
    cases da <;>
      simp [extractPdfText, acceptFirstWith, extractPdfWithDocumentai,
        extractPdfWithOcr, pdfAccept]
  · intro t
    simp only [pdfAccept, Bool.and_eq_true, bne_iff_ne, ne_eq, decide_eq_true_eq]
    constructor
    · exact fun h => h.2
    · intro h
      refine ⟨?_, h⟩
      intro ht
      subst ht
      rw [pyStrip_empty] at h
      simp at h
  · intro da pp py h1 h2
    unfold extractPdfText
    have hda : (da && pdfAccept extractPdfWithDocumentai) = false := by
      simp [extractPdfWithDocumentai, pdfAccept]
    rw [hda]
    simp only [Bool.false_eq_true, if_false]
    rw [if_neg (by simp [h1]), if_pos (by simp [h2])]
  · intro vc vr tr
    cases vc <;> cases vr <;>
      simp [extractImageText, acceptFirstWith, imgAccept]

set_option maxRecDepth 16384 in
theorem c2_dispatcher_order_strict_threshold_witness :
    extractPdfText true (some "short") (some c2LongText) = some c2LongText :=
  c2_dispatcher_order_strict_threshold.2.2.1 true "short" c2LongText rfl rfl

/-- C3 counterexample: the DOCX path of the dispatcher returns the empty
string (not a failure signal) for a document with no paragraphs and no
tables, so an empty string IS returned as the extraction result of a strategy
path. -/
theorem c3_docx_empty_string_result :
    extractText .docx true false Option.none Option.none (some ⟨[], []⟩)
      false Option.none Option.none "x" = some "" := rfl

/-- C3 (amended): extraction failure is signalled by the distinct value
`None`, and a PDF result is only ever accepted with more than 100 trimmed
characters (hence never empty); but the DOCX structural walk returns the
empty string for a content-free document (and the TEXT path returns the
decode verbatim), so the empty string does occur as a successful extraction
result — "failure" and "empty document" stay distinguishable (`None` vs
`""`), while "empty is never returned" is false. -/
theorem c3_failure_signalling_amended :
    (∀ (da : Bool) (pp py : Option String) (t : String),
      extractPdfText da pp py = some t → (pyStrip t).length > 100 ∧ t ≠ "") ∧
    extractDocxText (some ⟨[], []⟩) = some "" ∧
    extractDocxText Option.none = Option.none := by
  refine ⟨?_, rfl, rfl⟩
  intro da pp py t h
  have hda : (da && pdfAccept extractPdfWithDocumentai) = false := by
    simp [extractPdfWithDocumentai, pdfAccept]
  unfold extractPdfText at h
  rw [hda] at h
  simp only [Bool.false_eq_true, if_false] at h
  by_cases hpp : pdfAccept pp = true
  · rw [if_pos hpp] at h
    rw [h] at hpp
    simp only [pdfAccept, Bool.and_eq_true, bne_iff_ne, ne_eq, decide_eq_true_eq] at hpp
    exact ⟨hpp.2, hpp.1⟩
  · rw [if_neg hpp] at h
    by_cases hpy : pdfAccept py = true
    · rw [if_pos hpy] at h
      rw [h] at hpy
      simp only [pdfAccept, Bool.and_eq_true, bne_iff_ne, ne_eq, decide_eq_true_eq] at hpy
      exact ⟨hpy.2, hpy.1⟩
    · rw [if_neg hpy] at h
      exact absurd h (by simp [extractPdfWithOcr])

set_option maxRecDepth 16384 in
theorem c3_failure_signalling_amended_witness :
    (pyStrip c2LongText).length > 100 ∧ c2LongText ≠ "" :=
  c3_failure_signalling_amended.1 false (some c2LongText) Option.none c2LongText rfl

/-- A cloud OCR result of exactly 10 trimmed characters. -/
def c8TenChars : String := "abcdefghij"

/-- C8 counterexample: a cloud (Vision) result of exactly 10 trimmed
characters is NOT treated as authoritative — the dispatcher falls through to
the local OCR result instead of returning it. -/
theorem c8_ten_char_cloud_result_not_accepted :
    extractImageText true (some c8TenChars) (some "TESSERACT") = some "TESSERACT" ∧
      (pyStrip c8TenChars).length = 10 :=
  ⟨rfl, rfl⟩

/-- C8 (amended): with the Vision client available, the cloud result is
returned without trying the local fallback exactly when its trimmed text has
*strictly more than* 10 characters; at 10 or fewer (and without the client)
the local OCR result is returned. -/
theorem c8_cloud_accept_strictly_above_ten :
    (∀ (t : String) (tess : Option String), (pyStrip t).length > 10 →
      extractImageText true (some t) tess = some t) ∧
    (∀ (t : String) (tess : Option String), (pyStrip t).length ≤ 10 →
      extractImageText true (some t) tess = tess) ∧
    (∀ vr tr : Option String, extractImageText false vr tr = tr) := by
  refine ⟨?_, ?_, ?_⟩
  · intro t tess h
    have ht : t ≠ "" := strip_len_pos_ne t (by omega)
    simp [extractImageText, ht, h]
  · intro t tess h
    have hlt : ¬ ((pyStrip t).length > 10) := by omega
    simp [extractImageText, hlt]
  · intro vr tr
    simp [extractImageText]

theorem c8_cloud_accept_strictly_above_ten_witness :
    extractImageText true (some "abcdefghijk") Option.none = some "abcdefghijk" :=
  c8_cloud_accept_strictly_above_ten.1 "abcdefghijk" Option.none (by decide)


theorem str_length_pos_iff (s : String) : 0 < s.length ↔ s ≠ "" := by
  obtain ⟨l⟩ := s
  cases l with
  | nil => simp [String.length]
  | cons c t =>
    simp only [String.length, List.length_cons, ne_eq]
    constructor
    · intro _ h
      exact List.noConfusion (congrArg String.data h)
    · intro _
      omega

/-- The claim's closed-form confidence formula (spec-side definition, from
the spec's words). -/
def confFormula (b1 b2 b3 b4 : Bool) : Rat :=
  ratMin 1 (0.5 + (if b1 then 0.2 else 0) + (if b2 then 0.1 else 0) +
    (if b3 then 0.1 else 0) + (if b4 then 0.1 else 0))

theorem confSeq_eq_formula (b1 b2 b3 b4 : Bool) :
    confSeq b1 b2 b3 b4 = confFormula b1 b2 b3 b4 := by
  cases b1 <;> cases b2 <;> cases b3 <;> cases b4 <;>
    norm_num [confSeq, confFormula, ratMin]

theorem ratMin_one_mono {x y : Rat} (h : x ≤ y) : ratMin 1 x ≤ ratMin 1 y := by
  unfold ratMin
  split <;> split <;> linarith

theorem ratMin_one_mem {x : Rat} (hx : 0 ≤ x) : 0 ≤ ratMin 1 x ∧ ratMin 1 x ≤ 1 := by
  unfold ratMin
  split
  · exact ⟨by norm_num, le_refl 1⟩
  · next h =>
    push_neg at h
    exact ⟨hx, le_of_lt h⟩

theorem ite_bonus_mono {b b' : Bool} (h : b = true → b' = true) (x : Rat)
    (hx : 0 ≤ x) : (if b then x else 0) ≤ (if b' then x else 0) := by
  cases b
  · cases b' <;> simp [hx]
  · rw [h rfl]

theorem confCheck_str (s : String) (n : Nat) :
    confCheck (.str s) n = .ok (decide (s.length > n)) := by
  by_cases h : s = ""
  · subst h
    simp [confCheck, pyTruthy, String.length]
  · simp [confCheck, pyTruthy, pyLen, h]

theorem confCheck_list (xs : List PyVal) :
    confCheck (.list xs) 0 = .ok (!xs.isEmpty) := by
  cases xs <;> simp [confCheck, pyTruthy, pyLen]

theorem confCheck_dict (es : List (PyVal × PyVal)) :
    confCheck (.dict es) 0 = .ok (!es.isEmpty) := by
  cases es <;> simp [confCheck, pyTruthy, pyLen]

/-- C6: the confidence score equals the claimed closed-form
`min(1, 0.5 + 0.2·[len(summary) > 50] + 0.1·[key_points non-empty] +
0.1·[important_terms non-empty] + 0.1·[next_steps non-empty])` on every
well-shaped structured content; the formula always lies in [0, 1] and is
monotonically non-decreasing in the four richness indicators. -/
theorem c6_confidence_score_formula_bounds_monotone :
    (∀ (d : PyDict) (s : String) (kp : List PyVal) (tm : List (PyVal × PyVal))
        (ns : List PyVal),
      dictGet d (.str "summary") = some (.str s) →
      dictGet d (.str "key_points") = some (.list kp) →
      dictGet d (.str "important_terms") = some (.dict tm) →
      dictGet d (.str "next_steps") = some (.list ns) →
      calcConfidenceScore d =
        confFormula (decide (s.length > 50)) (!kp.isEmpty) (!tm.isEmpty) (!ns.isEmpty)) ∧
    (∀ b1 b2 b3 b4 : Bool,
      0 ≤ confFormula b1 b2 b3 b4 ∧ confFormula b1 b2 b3 b4 ≤ 1) ∧
    (∀ b1 b2 b3 b4 b1' b2' b3' b4' : Bool,
      (b1 = true → b1' = true) → (b2 = true → b2' = true) →
      (b3 = true → b3' = true) → (b4 = true → b4' = true) →
      confFormula b1 b2 b3 b4 ≤ confFormula b1' b2' b3' b4') := by
  refine ⟨?_, ?_, ?_⟩
  · intro d s kp tm ns hs hkp htm hns
    have g1 : dictGetD d "summary" = .str s := by rw [dictGetD, hs]; rfl
    have g2 : dictGetD d "key_points" = .list kp := by rw [dictGetD, hkp]; rfl
    have g3 : dictGetD d "important_terms" = .dict tm := by rw [dictGetD, htm]; rfl
    have g4 : dictGetD d "next_steps" = .list ns := by rw [dictGetD, hns]; rfl
    unfold calcConfidenceScore calcConfidenceScoreE
    rw [g1, g2, g3, g4, confCheck_str, confCheck_list, confCheck_dict, confCheck_list]
    simp only [bind, Except.bind, pure, Except.pure]
    exact confSeq_eq_formula _ _ _ _
  · intro b1 b2 b3 b4
    have i1 : (0:Rat) ≤ if b1 then 0.2 else 0 := by split <;> norm_num
    have i2 : (0:Rat) ≤ if b2 then 0.1 else 0 := by split <;> norm_num
    have i3 : (0:Rat) ≤ if b3 then 0.1 else 0 := by split <;> norm_num
    have i4 : (0:Rat) ≤ if b4 then 0.1 else 0 := by split <;> norm_num
    unfold confFormula
    exact ratMin_one_mem (by linarith)
  · intro b1 b2 b3 b4 b1' b2' b3' b4' h1 h2 h3 h4
    unfold confFormula
    apply ratMin_one_mono
    have i1 := ite_bonus_mono h1 (0.2:Rat) (by norm_num)
    have i2 := ite_bonus_mono h2 (0.1:Rat) (by norm_num)
    have i3 := ite_bonus_mono h3 (0.1:Rat) (by norm_num)
    have i4 := ite_bonus_mono h4 (0.1:Rat) (by norm_num)
    linarith

/-- A well-shaped content with a long summary and non-empty key points. -/
def c6Sample : PyDict :=
  [(.str "summary", .str "This agreement describes the obligations of both parties in detail."),
   (.str "key_points", .list [.str "a"]),
   (.str "important_terms", .dict []),
   (.str "deadlines_obligations", .list []),
   (.str "warnings", .list []),
   (.str "next_steps", .list [])]

theorem c6_confidence_score_formula_bounds_monotone_witness :
    calcConfidenceScore c6Sample = confFormula true true false false := by
  have h := c6_confidence_score_formula_bounds_monotone.1 c6Sample
    "This agreement describes the obligations of both parties in detail."
    [.str "a"] [] [] rfl rfl rfl rfl
  have hlen : ("This agreement describes the obligations of both parties in detail." : String).length = 67 := rfl
  rw [hlen] at h
  simpa using h

theorem splitRunsGo_ne_nil (p : Char → Bool) :
    ∀ (l acc : List Char) (done : List (List Char)) (inRun : Bool),
      splitRunsGo p l acc done inRun ≠ [] := by
  intro l
  induction l with
  | nil =>
    intro acc done inRun
    unfold splitRunsGo
    split <;> simp
  | cons c rest ih =>
    intro acc done inRun
    unfold splitRunsGo
    split
    · split
      · exact ih _ _ _
      · exact ih _ _ _
    · exact ih _ _ _

/-- Average words per sentence as `_estimate_reading_level` computes it. -/
def avgWordsPerSentence (t : String) : Rat :=
  ((pySplitWs t).length : Rat) / ((splitRuns isSentencePunct t.data).length : Rat)

/-- Average characters per word as `_estimate_reading_level` computes it. -/
def avgCharsPerWord (t : String) : Rat :=
  ((((pySplitWs t).map List.length).sum : Nat) : Rat) / ((pySplitWs t).length : Rat)

/-- Nine four-character words, no sentence punctuation: averages 9 and 4. -/
def c7Elem : String := "aaaa bbbb cccc dddd eeee ffff gggg hhhh iiii"

/-- Nineteen six-character words: averages 19 and 6. -/
def c7High : String :=
  "aaaaaa bbbbbb cccccc dddddd eeeeee ffffff gggggg hhhhhh iiiiii jjjjjj kkkkkk llllll mmmmmm nnnnnn oooooo pppppp qqqqqq rrrrrr ssssss"

/-- C7: the reading-level classifier returns "elementary" at computed
averages (9 words/sentence, 4 chars/word), "high_school" at (19, 6),
"unknown" on the empty summary and exactly on whitespace-only summaries, and
in general classifies by the ascending thresholds (<10,<5), (<15,<6),
(<20,<7), else college, with sentences split on `[.!?]+` runs and words on
whitespace. -/
theorem c7_reading_level_classification :
    (estimateReadingLevel c7Elem = "elementary" ∧
      avgWordsPerSentence c7Elem = 9 ∧ avgCharsPerWord c7Elem = 4) ∧
    (estimateReadingLevel c7High = "high_school" ∧
      avgWordsPerSentence c7High = 19 ∧ avgCharsPerWord c7High = 6) ∧
    estimateReadingLevel "" = "unknown" ∧
    (∀ t : String, pySplitWs t = [] → estimateReadingLevel t = "unknown") ∧
    (∀ t : String, pySplitWs t ≠ [] →
      estimateReadingLevel t =
        (if avgWordsPerSentence t < 10 ∧ avgCharsPerWord t < 5 then "elementary"
         else if avgWordsPerSentence t < 15 ∧ avgCharsPerWord t < 6 then "intermediate"
         else if avgWordsPerSentence t < 20 ∧ avgCharsPerWord t < 7 then "high_school"
         else "college")) := by
  have hb1 : (splitRuns isSentencePunct c7Elem.data).length = 1 := rfl
  have hb2 : (pySplitWs c7Elem).length = 9 := rfl
  have hb3 : ((pySplitWs c7Elem).map List.length).sum = 36 := rfl
  have hb4 : (splitRuns isSentencePunct c7Elem.data).isEmpty = false := rfl
  have hb5 : (pySplitWs c7Elem).isEmpty = false := rfl
  have hc1 : (splitRuns isSentencePunct c7High.data).length = 1 := rfl
  have hc2 : (pySplitWs c7High).length = 19 := rfl
  have hc3 : ((pySplitWs c7High).map List.length).sum = 114 := rfl
  have hc4 : (splitRuns isSentencePunct c7High.data).isEmpty = false := rfl
  have hc5 : (pySplitWs c7High).isEmpty = false := rfl
  refine ⟨⟨?_, ?_, ?_⟩, ⟨?_, ?_, ?_⟩, rfl, ?_, ?_⟩
  · simp only [estimateReadingLevel]
    rw [hb4, hb5]
    simp only [Bool.or_self, Bool.false_eq_true, if_false]
    rw [hb1, hb2, hb3]
    norm_num
  · unfold avgWordsPerSentence
    rw [hb1, hb2]
    norm_num
  · unfold avgCharsPerWord
    rw [hb2, hb3]
    norm_num
  · simp only [estimateReadingLevel]
    rw [hc4, hc5]
    simp only [Bool.or_self, Bool.false_eq_true, if_false]
    rw [hc1, hc2, hc3]
    norm_num
  · unfold avgWordsPerSentence
    rw [hc1, hc2]
    norm_num
  · unfold avgCharsPerWord
    rw [hc2, hc3]
    norm_num
  · intro t h
    simp [estimateReadingLevel, h]
  · intro t h
    have hsent : (splitRuns isSentencePunct t.data).isEmpty = false := by
      simp only [List.isEmpty_eq_false_iff_exists_mem]
      rcases hx : splitRuns isSentencePunct t.data with _ | ⟨x, xs⟩
      · exact absurd hx (splitRunsGo_ne_nil _ _ _ _ _)
      · exact ⟨x, List.mem_cons_self _ _⟩
    have hw : (pySplitWs t).isEmpty = false := by
      simp only [List.isEmpty_eq_false_iff_exists_mem]
      rcases hx : pySplitWs t with _ | ⟨x, xs⟩
      · exact absurd hx h
      · exact ⟨x, List.mem_cons_self _ _⟩
    simp only [estimateReadingLevel, avgWordsPerSentence, avgCharsPerWord]
    rw [hsent, hw]
    simp only [Bool.or_self, Bool.false_eq_true, if_false]

theorem c7_reading_level_classification_witness :
    estimateReadingLevel "words without punctuation marks" =
      (if avgWordsPerSentence "words without punctuation marks" < 10 ∧
          avgCharsPerWord "words without punctuation marks" < 5 then "elementary"
       else if avgWordsPerSentence "words without punctuation marks" < 15 ∧
          avgCharsPerWord "words without punctuation marks" < 6 then "intermediate"
       else if avgWordsPerSentence "words without punctuation marks" < 20 ∧
          avgCharsPerWord "words without punctuation marks" < 7 then "high_school"
       else "college") :=
  c7_reading_level_classification.2.2.2.2 "words without punctuation marks" (by decide)

/-- C9: an absent or empty model reply makes the pipeline fail with the
model-call error before the normalizer can run: the result is the propagated
failure, and it is invariant under replacing the parse function — the
normalizer is never consulted. -/
theorem c9_empty_reply_raises_before_normalizer :
    ∀ (pf : String → String) (prf : String → String → String → String)
      (parse1 parse2 : String → Except PyErr PyDict)
      (reply : Option String) (text lvl aud ts : String),
      (reply = Option.none ∨ reply = some "") →
      simplifyDocumentWith pf prf parse1 reply text lvl aud ts =
        .error .generationFailure ∧
      simplifyDocumentWith pf prf parse1 reply text lvl aud ts =
        simplifyDocumentWith pf prf parse2 reply text lvl aud ts := by
  intro pf prf p1 p2 reply text lvl aud ts h
  have hg : generateSimplifiedContent reply = .error .generationFailure := by
    rcases h with h | h <;> subst h <;> rfl
  constructor <;> simp [simplifyDocumentWith, hg]

theorem c9_empty_reply_raises_before_normalizer_witness :
    simplifyDocumentWith id (fun a _ _ => a) parseAiResponse Option.none
      "doc" "standard" "general_public" "t0" = .error .generationFailure :=
  (c9_empty_reply_raises_before_normalizer id (fun a _ _ => a) parseAiResponse
    (fun _ => .ok []) Option.none "doc" "standard" "general_public" "t0" (Or.inl rfl)).1

/-- C10: `answer_question` is total — it always returns a mapping with
exactly the keys "answer" and "confidence_score" in that order; the
confidence is 0.7 exactly when the model reply exists and strips to a
non-empty answer, and 0.3 otherwise; when the model call fails (absent or
empty reply) the fixed apology answer is returned. -/
theorem c10_answer_question_total_shape_confidence :
    ∀ (pf : String → String) (reply : Option String) (dt q aud : String),
      ((answerQuestion pf reply dt q aud).map Prod.fst =
        [.str "answer", .str "confidence_score"]) ∧
      (dictGet (answerQuestion pf reply dt q aud) (.str "confidence_score") =
          some (.rat 0.7) ↔ ∃ s, reply = some s ∧ pyStrip s ≠ "") ∧
      (dictGet (answerQuestion pf reply dt q aud) (.str "confidence_score") =
          some (.rat 0.7) ∨
        dictGet (answerQuestion pf reply dt q aud) (.str "confidence_score") =
          some (.rat 0.3)) ∧
      ((reply = Option.none ∨ reply = some "") →
        dictGet (answerQuestion pf reply dt q aud) (.str "answer") =
          some (.str "I\x27m sorry, I couldn\x27t find the answer in the document.")) := by
  intro pf reply dt q aud
  have hne : (0.7 : Rat) ≠ 0.3 := by norm_num
  cases reply with
  | none =>
    refine ⟨rfl, ?_, Or.inr rfl, fun _ => rfl⟩
    constructor
    · intro h
      have h2 : (some (PyVal.rat 0.3) : Option PyVal) = some (.rat 0.7) := h
      injection h2 with h3
      injection h3 with h4
      exact absurd h4.symm hne
    · rintro ⟨s', hs', _⟩
      exact Option.noConfusion hs'
  | some s =>
    by_cases hs : s = ""
    · subst hs
      refine ⟨rfl, ?_, Or.inr rfl, fun _ => rfl⟩
      constructor
      · intro h
        have h2 : (some (PyVal.rat 0.3) : Option PyVal) = some (.rat 0.7) := h
        injection h2 with h3
        injection h3 with h4
        exact absurd h4.symm hne
      · rintro ⟨s', hs', hstrip⟩
        injection hs' with he
        subst he
        exact (hstrip pyStrip_empty).elim
    · have hred : answerQuestion pf (some s) dt q aud =
          [(.str "answer", .str (pyStrip s)),
           (.str "confidence_score", .rat (if (pyStrip s).length > 0 then 0.7 else 0.3))] := by
        unfold answerQuestion generateSimplifiedContent
        simp [hs]
      rw [hred]
      by_cases ha : pyStrip s = ""
      · have h0 : ¬ ((pyStrip s).length > 0) := by rw [ha]; simp [String.length]
        rw [if_neg h0]
        refine ⟨rfl, ?_, Or.inr rfl, ?_⟩
        · constructor
          · intro h
            have h2 : (some (PyVal.rat 0.3) : Option PyVal) = some (.rat 0.7) := h
            injection h2 with h3
            injection h3 with h4
            exact absurd h4.symm hne
          · rintro ⟨s', hs', hstrip⟩
            injection hs' with he
            subst he
            exact (hstrip ha).elim
        · intro hcase
          rcases hcase with hcase | hcase
          · exact Option.noConfusion hcase
          · injection hcase with he
            exact absurd he hs
      · have h0 : (pyStrip s).length > 0 := (str_length_pos_iff _).mpr ha
        rw [if_pos h0]
        refine ⟨rfl, ⟨fun _ => ⟨s, rfl, ha⟩, fun _ => rfl⟩, Or.inl rfl, ?_⟩
        intro hcase
        rcases hcase with hcase | hcase
        · exact Option.noConfusion hcase
        · injection hcase with he
          exact absurd he hs

theorem c10_answer_question_total_shape_confidence_witness :
    dictGet (answerQuestion id (some "yes") "doc" "q" "aud") (.str "confidence_score") =
      some (.rat 0.7) :=
  (c10_answer_question_total_shape_confidence id (some "yes") "doc" "q" "aud").2.1.mpr
    ⟨"yes", rfl, by decide⟩
